import Mathlib

/-!
Verification of the llmz iteration engine (`src/packages/llmz/src/llmz.ts`).

This file shallowly embeds the parts of `llmz.ts` that the specification's
claims are about:

* the object-property instrumentation built in `executeIteration`
  (the `Object.defineProperty` getter/setter pairs, lines 301-363), including
  the deep-equality no-op check, the read-only rejection, schema validation,
  property traces and the per-iteration mutation `Map`;
* the token-budget computation (`getModelOutputLimit`, lines 37-48, and its
  use at lines 226-238);
* the run/iteration state machine (`executeContext` / `executeIteration`,
  lines 80-527), with the sandbox, the LLM client and the abort signal
  abstracted as per-cycle environments;
* the tool wrapper `wrapTool` (lines 535-668) with its slow-call timer,
  signal handling and trace recording.

JavaScript values are modelled by the inductive `Val`; lodash `isEqual`
(deep structural equality) is modelled by propositional equality on `Val`,
which also subsumes the strict-equality (`===`) recheck in the setter.
-/

namespace LLMZ

/-- JavaScript values visible to generated programs.  Composite values
(arrays/objects) are encoded with `vpair`; deep equality (`lodash.isEqual`)
is structural equality of `Val`. -/
inductive Val
  | vnull
  | vbool (b : Bool)
  | vnum (n : Int)
  | vstr (s : String)
  | vpair (a b : Val)
deriving DecidableEq

/-- Association-list read, modelling `record[key]`. -/
def assocGet {β : Type} (l : List (String × β)) (k : String) : Option β :=
  match l with
  | [] => none
  | (k', v) :: rest => if k' = k then some v else assocGet rest k

/-- Association-list write, modelling `record[key] = v` / `Map.set`:
replaces the value in place when the key is present (keeping its position,
as a JS `Map` does), appends otherwise. -/
def assocSet {β : Type} (l : List (String × β)) (k : String) (v : β) :
    List (String × β) :=
  match l with
  | [] => [(k, v)]
  | (k', v') :: rest =>
    if k' = k then (k, v) :: rest else (k', v') :: assocSet rest k v

/-- One mutation diff, `ObjectMutation` in `types.ts` as produced at
llmz.ts:350: `{ object, property, before, after }`. -/
structure Mutation where
  object : String
  property : String
  before : Val
  after : Val
deriving DecidableEq

/-- A property trace event as pushed at llmz.ts:342-348
(`{ type: 'property', object, property, value }`; timestamps omitted). -/
structure PropTrace where
  object : String
  property : String
  value : Val
deriving DecidableEq

/-- One declared object property (llmz.ts:307): name, initial value,
writability flag and validation schema.  `schema v` models
`(type ?? z.any()).safeParse(v)`: `some parsed` on success (the possibly
coerced value), `none` on failure.  `z.any()` is `fun v => some v`. -/
structure PropDecl where
  name : String
  value : Val
  writable : Bool
  schema : Val → Option Val

/-- The mutable state shared by one object's property accessors during an
iteration: `internalValues` (llmz.ts:304), the pushed property traces, and
the `changes : Map<string, ObjectMutation>` (llmz.ts:301). -/
structure BindState where
  internalValues : List (String × Val)
  traces : List PropTrace
  changes : List (String × Mutation)
deriving DecidableEq

/-- Initial binding state for one object (llmz.ts:304-310): every declared
property's internal value is its declared value; no traces, no changes. -/
def initBindState (props : List PropDecl) : BindState :=
  { internalValues := props.map (fun p => (p.name, p.value))
    traces := []
    changes := [] }

/-- Outcome of one property assignment by the setter of llmz.ts:319-351. -/
inductive SetResult
  | noop
  | throwAssignReadOnly
  | throwAssignSchema
  | committed
deriving DecidableEq

/-- The property setter installed by `Object.defineProperty` at
llmz.ts:319-351, for object `objName` and property declaration `p`
(whose declared `p.value` is the captured `initialValue`), acting on the
shared state `st` with assigned value `v`:

1. `isEqual(value, internalValues[name])` → return (silent no-op);
2. `!writable` → `throw new AssignmentError(...)`;
3. `value === internalValues[name]` → return (subsumed by step 1 in this
   model, kept for fidelity);
4. `schema.safeParse(value)` failure → `throw new AssignmentError(...)`;
5. commit: store the parsed value, push a property trace, and
   `changes.set(obj.name + "." + name, {object, property, before: initialValue, after: parsed.data})`. -/
def set (objName : String) (p : PropDecl) (st : BindState) (v : Val) :
    BindState × SetResult :=
  let cur := (assocGet st.internalValues p.name).getD p.value
  if v = cur then
    (st, .noop)
  else if p.writable = false then
    (st, .throwAssignReadOnly)
  else if v = cur then
    (st, .noop)
  else
    match p.schema v with
    | none => (st, .throwAssignSchema)
    | some parsed =>
      ({ internalValues := assocSet st.internalValues p.name parsed
         traces := st.traces ++ [⟨objName, p.name, parsed⟩]
         changes := assocSet st.changes (objName ++ "." ++ p.name)
           ⟨objName, p.name, p.value, parsed⟩ },
       .committed)

/-- Whether a `SetResult` is a raised `AssignmentError`. -/
def SetResult.isAssignmentError : SetResult → Bool
  | .throwAssignReadOnly => true
  | .throwAssignSchema => true
  | _ => false

end LLMZ

namespace LLMZ

/- Helper lemmas about association lists. -/

theorem assocGet_assocSet_self {β : Type} (l : List (String × β)) (k : String)
    (v : β) : assocGet (assocSet l k v) k = some v := by
  induction l with
  | nil => simp [assocSet, assocGet]
  | cons hd tl ih =>
    obtain ⟨k', v'⟩ := hd
    by_cases h : k' = k
    · simp [assocSet, assocGet, h]
    · simp [assocSet, assocGet, h, ih]

theorem assocSet_length {β : Type} (l : List (String × β)) (k : String)
    (v : β) :
    (assocSet l k v).length =
      if (assocGet l k).isSome then l.length else l.length + 1 := by
  induction l with
  | nil => simp [assocSet, assocGet]
  | cons hd tl ih =>
    obtain ⟨k', v'⟩ := hd
    by_cases h : k' = k
    · simp [assocSet, assocGet, h]
    · simp only [assocSet, assocGet, h, if_false, List.length_cons, ih]
      by_cases h' : (assocGet tl k).isSome <;> simp [h']

/- Concrete declarations used to instantiate the property theorems. -/

/-- A read-only property with a pass-through (`z.any()`) schema. -/
def roProp : PropDecl :=
  { name := "status", value := .vstr "open", writable := false
    schema := fun v => some v }

/-- A writable property with a pass-through (`z.any()`) schema. -/
def rwProp : PropDecl :=
  { name := "count", value := .vnum 0, writable := true
    schema := fun v => some v }

/-- C2 (counterexample): the claim says an assignment to a read-only
property is rejected with an assignment error for ANY assigned value; but
assigning the deep-equal current value (`"open"`) to the read-only property
`ticket.status` returns silently (`noop`), because the deep-equality check
at llmz.ts:320 precedes the writability check at llmz.ts:324. -/
theorem C2_counterexample :
    (set "ticket" roProp (initBindState [roProp]) (.vstr "open")).2 =
      SetResult.noop ∧
    ((set "ticket" roProp (initBindState [roProp])
        (.vstr "open")).2.isAssignmentError = false) := by
  constructor <;> rfl

/-- C2 (amended): for a read-only declared property, the stored state is
unchanged by EVERY attempted assignment, and every assignment whose value
is not deep-equal to the currently stored value is rejected with an
assignment error (`AssignmentError`, llmz.ts:324-326); a deep-equal
assignment is instead a silent no-op. -/
theorem C2_readonly_rejected (o : String) (p : PropDecl) (st : BindState)
    (v : Val) (hro : p.writable = false) :
    (set o p st v).1 = st ∧
    (v ≠ (assocGet st.internalValues p.name).getD p.value →
      (set o p st v).2 = SetResult.throwAssignReadOnly) := by
  unfold set
  by_cases h : v = (assocGet st.internalValues p.name).getD p.value
  · simp [h]
  · simp [h, hro]

/-- C2 (witness): instantiates `C2_readonly_rejected` at the read-only
property `ticket.status` (stored value `"open"`) and assigned value
`"closed"`. -/
theorem C2_readonly_rejected_witness :
    (set "ticket" roProp (initBindState [roProp]) (.vstr "closed")).1 =
      initBindState [roProp] ∧
    (set "ticket" roProp (initBindState [roProp]) (.vstr "closed")).2 =
      SetResult.throwAssignReadOnly :=
  ⟨(C2_readonly_rejected "ticket" roProp (initBindState [roProp])
      (.vstr "closed") rfl).1,
   (C2_readonly_rejected "ticket" roProp (initBindState [roProp])
      (.vstr "closed") rfl).2 (by decide)⟩

/-- C6: for every declared property (writable or not), assigning a value
deep-equal to the currently stored value changes nothing: the whole binding
state (stored values, traces, mutation diffs) is returned unchanged and the
outcome is a silent no-op (llmz.ts:320-322). -/
theorem C6_deep_equal_noop (o : String) (p : PropDecl) (st : BindState)
    (v : Val) (heq : v = (assocGet st.internalValues p.name).getD p.value) :
    set o p st v = (st, SetResult.noop) := by
  unfold set
  simp [heq]

/-- C6 (witness): instantiates `C6_deep_equal_noop` at the writable
property `counter.count` with its stored value `0`. -/
theorem C6_deep_equal_noop_witness :
    set "counter" rwProp (initBindState [rwProp]) (.vnum 0) =
      (initBindState [rwProp], SetResult.noop) :=
  C6_deep_equal_noop "counter" rwProp (initBindState [rwProp]) (.vnum 0)
    (by decide)

/-- C9: for a read-only declared property, assigning a value deep-equal to
the currently stored value returns silently with no assignment error: the
deep-equality no-op check (llmz.ts:320) runs before the writability check
(llmz.ts:324). -/
theorem C9_readonly_deep_equal_silent (o : String) (p : PropDecl)
    (st : BindState) (v : Val) (hro : p.writable = false)
    (heq : v = (assocGet st.internalValues p.name).getD p.value) :
    set o p st v = (st, SetResult.noop) ∧
    (set o p st v).2.isAssignmentError = false := by
  unfold set
  simp [heq, SetResult.isAssignmentError]

/-- C9 (witness): instantiates `C9_readonly_deep_equal_silent` at the
read-only property `ticket.status` with its stored value `"open"`. -/
theorem C9_readonly_deep_equal_silent_witness :
    set "ticket" roProp (initBindState [roProp]) (.vstr "open") =
      (initBindState [roProp], SetResult.noop) ∧
    (set "ticket" roProp (initBindState [roProp])
      (.vstr "open")).2.isAssignmentError = false :=
  C9_readonly_deep_equal_silent "ticket" roProp (initBindState [roProp])
    (.vstr "open") rfl (by decide)

/-- C3 (counterexample): two accepted writes to the same property
(`counter.count`: `0 → 1`, then `1 → 2`) produce ONE mutation diff, not
two — the `changes` container is a `Map` keyed by `object.property`
(llmz.ts:301, 350) — and the surviving diff's `before` is the declared
initial value `0`, not the value `1` stored immediately before the second
write; each accepted write does push its own property trace (2 traces). -/
theorem C3_counterexample :
    (set "counter" rwProp (initBindState [rwProp]) (.vnum 1)).2 =
      SetResult.committed ∧
    (set "counter" rwProp
        (set "counter" rwProp (initBindState [rwProp]) (.vnum 1)).1
        (.vnum 2)).2 = SetResult.committed ∧
    (set "counter" rwProp
        (set "counter" rwProp (initBindState [rwProp]) (.vnum 1)).1
        (.vnum 2)).1.changes.length = 1 ∧
    (set "counter" rwProp
        (set "counter" rwProp (initBindState [rwProp]) (.vnum 1)).1
        (.vnum 2)).1.traces.length = 2 ∧
    assocGet (set "counter" rwProp
        (set "counter" rwProp (initBindState [rwProp]) (.vnum 1)).1
        (.vnum 2)).1.changes "counter.count" =
      some ⟨"counter", "count", .vnum 0, .vnum 2⟩ := by
  refine ⟨rfl, rfl, rfl, rfl, rfl⟩

/-- C3 (amended): within one iteration, every accepted property write
appends exactly one property trace, but the mutation list keeps at most
one diff per property: the diff is keyed by `object.property`, its
`before` is the property's declared value captured when the bindings were
built (llmz.ts:310) and its `after` is the latest committed value, so the
mutation-list length grows only when the property had no diff yet
(k accepted writes to the same property yield 1 diff). -/
theorem C3_mutation_diff (o : String) (p : PropDecl) (st : BindState)
    (v w : Val)
    (hne : v ≠ (assocGet st.internalValues p.name).getD p.value)
    (hw : p.writable = true)
    (hs : p.schema v = some w) :
    (set o p st v).2 = SetResult.committed ∧
    (set o p st v).1.traces = st.traces ++ [⟨o, p.name, w⟩] ∧
    assocGet (set o p st v).1.changes (o ++ "." ++ p.name) =
      some ⟨o, p.name, p.value, w⟩ ∧
    (set o p st v).1.changes.length =
      (if (assocGet st.changes (o ++ "." ++ p.name)).isSome then
        st.changes.length
      else st.changes.length + 1) := by
  unfold set
  simp [hne, hw, hs, assocGet_assocSet_self, assocSet_length]

/-- C3 (witness): instantiates `C3_mutation_diff` at the writable property
`counter.count` (stored value `0`) with assigned value `1`. -/
theorem C3_mutation_diff_witness :
    (set "counter" rwProp (initBindState [rwProp]) (.vnum 1)).2 =
      SetResult.committed ∧
    (set "counter" rwProp (initBindState [rwProp]) (.vnum 1)).1.traces =
      (initBindState [rwProp]).traces ++ [⟨"counter", "count", .vnum 1⟩] ∧
    assocGet (set "counter" rwProp (initBindState [rwProp])
        (.vnum 1)).1.changes ("counter" ++ "." ++ rwProp.name) =
      some ⟨"counter", "count", .vnum 0, .vnum 1⟩ ∧
    (set "counter" rwProp (initBindState [rwProp]) (.vnum 1)).1.changes.length =
      (if (assocGet (initBindState [rwProp]).changes
          ("counter" ++ "." ++ rwProp.name)).isSome then
        (initBindState [rwProp]).changes.length
      else (initBindState [rwProp]).changes.length + 1) :=
  C3_mutation_diff "counter" rwProp (initBindState [rwProp]) (.vnum 1)
    (.vnum 1) (by decide) rfl rfl

/- Token budget for the Truncation Manager (llmz.ts:35-48 and 226-238).
Numbers are modelled as rationals; the float constant `0.1` is the
rational 1/10. -/

/-- lodash `clamp(number, lower, upper)`: the number clamped to the
inclusive bounds. -/
def clamp (x lower upper : ℚ) : ℚ := min (max x lower) upper

/-- `RESPONSE_LENGTH_BUFFER.MIN_TOKENS` (llmz.ts:38). -/
def MIN_TOKENS : ℚ := 1000

/-- `RESPONSE_LENGTH_BUFFER.MAX_TOKENS` (llmz.ts:39). -/
def MAX_TOKENS : ℚ := 16000

/-- `RESPONSE_LENGTH_BUFFER.PERCENTAGE` (llmz.ts:40). -/
def PERCENTAGE : ℚ := 1 / 10

/-- `getModelOutputLimit` (llmz.ts:43-48):
`clamp(PERCENTAGE * inputLength, MIN_TOKENS, MAX_TOKENS)`. -/
def getModelOutputLimit (inputLength : ℚ) : ℚ :=
  clamp (PERCENTAGE * inputLength) MIN_TOKENS MAX_TOKENS

/-- The model context window used by `executeIteration`: hard-coded to
`128_000` (llmz.ts:226, `const modelLimit = 128_000`). -/
def modelLimit : ℚ := 128000

/-- The response-length reserve computed at llmz.ts:227:
`getModelOutputLimit(modelLimit)` — note the argument is the model context
window itself, not the length of the input messages. -/
def responseLengthBuffer : ℚ := getModelOutputLimit modelLimit

/-- The token limit passed to `truncateWrappedContent` at llmz.ts:231:
`modelLimit - responseLengthBuffer`. -/
def truncationTokenLimit : ℚ := modelLimit - responseLengthBuffer

/-- Modelled from the spec: the claim's formula for the token budget, in
which the reserve is computed from the length of the input fed to the
model — "the model's context window minus a response-length reserve
(reserve = clamp(10% of input length, 1000, 16000) tokens)". -/
def specClaimedTokenLimit (inputLength : ℚ) : ℚ :=
  modelLimit - clamp (PERCENTAGE * inputLength) MIN_TOKENS MAX_TOKENS

/-- C7 (counterexample): the code's token limit is the constant `115200`
(reserve `12800`, computed from the hard-coded context window `128000`),
whereas the claim's formula applied to an input of length 0 (an empty
message list) yields `127000` (reserve clamped up to `1000`): the reserve
does not depend on the input length. -/
theorem C7_counterexample :
    truncationTokenLimit = 115200 ∧
    specClaimedTokenLimit 0 = 127000 ∧
    specClaimedTokenLimit 0 ≠ truncationTokenLimit := by
  refine ⟨?_, ?_, ?_⟩ <;>
    norm_num [truncationTokenLimit, specClaimedTokenLimit,
      responseLengthBuffer, getModelOutputLimit, clamp, modelLimit,
      PERCENTAGE, MIN_TOKENS, MAX_TOKENS]

/-- C7 (amended): for every model invocation the token limit passed to the
Truncation Manager equals the model's context window (hard-coded 128000)
minus a response-length reserve computed as
`clamp(10% of the context window, 1000, 16000) = 12800`, i.e. the limit is
the constant `115200`, independent of the input length. -/
theorem C7_token_budget :
    responseLengthBuffer = 12800 ∧
    truncationTokenLimit = modelLimit - getModelOutputLimit modelLimit ∧
    truncationTokenLimit = 115200 := by
  refine ⟨?_, rfl, ?_⟩ <;>
    norm_num [truncationTokenLimit, responseLengthBuffer,
      getModelOutputLimit, clamp, modelLimit, PERCENTAGE, MIN_TOKENS,
      MAX_TOKENS]

/- The iteration engine (llmz.ts:80-527).  The LLM client, the sandbox and
the abort signal are external collaborators; each loop cycle's interaction
with them is abstracted into a `CycleEnv` value. -/

/-- The `toolCall` payload attached to a `VMInterruptSignal` by `wrapTool`
(llmz.ts:564-569); schemas omitted, raw input kept. -/
structure ToolCallInfo where
  name : String
  input : Val
deriving DecidableEq

/-- The control signals of errors.ts as used by llmz.ts: `ThinkSignal`
(with its `variables` and `context` payloads), `ExecuteSignal`, and
`VMInterruptSignal` (with its optional `toolCall` annotation). -/
inductive Sig
  | think (vars : List (String × Val)) (context : List (String × Val))
  | executeSig
  | interrupt (toolCall : Option ToolCallInfo)
deriving DecidableEq

/-- The error kinds that reach `executeContext`'s classification:
`InvalidCodeError`, `CodeExecutionError`, any other sandbox throw, the
`No output from LLM` error, the abort error, and `LoopExceededError`. -/
inductive ErrK
  | invalidCode
  | codeExec
  | otherVm
  | llmNoOutput
  | abortedErr
  | loopExceeded
deriving DecidableEq

/-- A program's declared return value `{ action?, ...fields }`
(`result.return_value`); `fields` is the rest of the object, i.e.
`omit(return_value, 'action')`. -/
structure RetVal where
  action : Option String
  fields : List (String × Val)
deriving DecidableEq

/-- One Iteration Record as assembled by `executeIteration`
(llmz.ts:378-523) and by the catch block of `executeContext`
(llmz.ts:169-189).  Fields not needed by any claim (timestamps, llm
metrics, code text, traces, mutations, messages) are omitted. -/
structure IterRec where
  status : String
  signal : Option Sig
  error : Option ErrK
  vars : List (String × Val)
  return_value : Option RetVal
deriving DecidableEq

/-- A partial-execution message pushed onto
`ctx.partialExecutionMessages`: the echoed assistant output
(llmz.ts:409-412, 444-447, 503-506) and the three synthesized follow-up
kinds built by the version adapter. -/
inductive PMsg
  | assistantRaw
  | invalidCodeMsg
  | thinkingMsg
  | codeErrorMsg
deriving DecidableEq

/-- The mutable run state (`Context` from context.ts) as used by llmz.ts:
iteration counter, loop budget, partial-execution scratch messages,
injected variables, and completed iteration records. -/
structure Ctx where
  iteration : Nat
  loop : Nat
  partialExecutionMessages : List PMsg
  injectedVariables : List (String × Val)
  iterations : List IterRec
deriving DecidableEq

/-- Modelled from the spec: `createContext` (context.ts, not under src/) —
"created once per run from caller-supplied options", with "a monotonically
increasing iteration counter reset whenever an iteration fully succeeds",
an empty iteration-record list and an empty partial-message scratch list;
the counter starts at zero. -/
def createContext (loop : Nat) : Ctx :=
  { iteration := 0, loop := loop, partialExecutionMessages := []
    injectedVariables := [], iterations := [] }

/-- The structured result of `runAsyncFunction` (vm.ts, external
collaborator, spec §6): success flag, declared return value, raised
signal, produced variables, and failure. -/
structure VMResult where
  success : Bool
  return_value : Option RetVal
  signal : Option Sig
  vars : List (String × Val)
  error : Option ErrK
deriving DecidableEq

/-- How the sandbox call at llmz.ts:399 ends: with a structured result,
by throwing `InvalidCodeError` (caught at llmz.ts:401), or by throwing
anything else (rethrown at llmz.ts:404). -/
inductive SandboxCall
  | throwInvalid
  | throwOther (e : ErrK)
  | res (r : VMResult)
deriving DecidableEq

/-- One loop cycle's interactions with the external collaborators: the
abort-signal state at the three check points (llmz.ts:100, 372, 132),
whether the LLM returned usable text (llmz.ts:259-266), and the sandbox
call's outcome. -/
structure CycleEnv where
  abortedAtStart : Bool
  llmOk : Bool
  abortedPreExec : Bool
  sandbox : SandboxCall
  abortedAfterIter : Bool
deriving DecidableEq

/-- How one `executeIteration` call ends: with an Iteration Record, or by
throwing an error to `executeContext`. -/
inductive IterOut
  | ok (r : IterRec)
  | thrown (e : ErrK)
deriving DecidableEq

/-- The Iteration Record of an iteration outcome, when there is one. -/
def recOf (x : Ctx × IterOut) : Option IterRec :=
  match x.2 with
  | .ok r => some r
  | .thrown _ => none

/-- `signal?.variables ?? {}` (llmz.ts:462): only a `ThinkSignal` carries
`variables`. -/
def sigVariables : Option Sig → List (String × Val)
  | some (.think v _) => v
  | _ => []

/-- `signal instanceof ThinkSignal` on an optional signal. -/
def isThink : Option Sig → Bool
  | some (.think _ _) => true
  | _ => false

/-- `signal instanceof VMInterruptSignal` on an optional signal. -/
def isInterrupt : Option Sig → Bool
  | some (.interrupt _) => true
  | _ => false

/-- llmz.ts:432-437: `let signal = result.signal;` then, when the run
succeeded and its declared return action is `'think'`, replace it with a
synthesized `ThinkSignal` carrying `omit(return_value, 'action')` as
context and `result.variables` as variables. -/
def effectiveSignal (r : VMResult) : Option Sig :=
  match r.return_value with
  | some rv =>
    if r.success && decide (rv.action = some "think") then
      some (.think r.vars rv.fields)
    else r.signal
  | none => r.signal

/-- One `executeIteration` call (llmz.ts:206-527) against the cycle
environment `env`:

* `ctx.iteration++ >= ctx.loop` (post-increment) throws
  `LoopExceededError` (llmz.ts:220-222);
* a model response without usable text throws `No output from LLM`
  (llmz.ts:264-266);
* an abort observed just before execution yields an `error` record
  (llmz.ts:372-392);
* an `InvalidCodeError` from the sandbox pushes the echoed program and the
  invalid-code follow-up onto the partial-execution messages and yields an
  `error` record (llmz.ts:408-430); any other sandbox throw escapes;
* a Think outcome pushes the echoed program and the thinking follow-up and
  yields a `partial` record (llmz.ts:439-472);
* a successful run or a `VMInterruptSignal` clears the partial-execution
  messages, resets the iteration counter to zero and yields a `success`
  record (llmz.ts:474-499);
* a `CodeExecutionError` pushes the echoed program and the error
  follow-up and yields an `error` record (llmz.ts:502-524); any other
  failure is rethrown (llmz.ts:526). -/
def executeIteration (ctx : Ctx) (env : CycleEnv) : Ctx × IterOut :=
  let old := ctx.iteration
  let ctx := { ctx with iteration := old + 1 }
  if old ≥ ctx.loop then (ctx, .thrown .loopExceeded)
  else if env.llmOk = false then (ctx, .thrown .llmNoOutput)
  else if env.abortedPreExec then
    (ctx, .ok { status := "error", signal := none, error := some .abortedErr
                vars := [], return_value := none })
  else
    match env.sandbox with
    | .throwOther e => (ctx, .thrown e)
    | .throwInvalid =>
      ({ ctx with partialExecutionMessages :=
          ctx.partialExecutionMessages ++ [.assistantRaw, .invalidCodeMsg] },
       .ok { status := "error", signal := none, error := some .invalidCode
             vars := [], return_value := none })
    | .res r =>
      let signal := effectiveSignal r
      if isThink signal then
        ({ ctx with partialExecutionMessages :=
            ctx.partialExecutionMessages ++ [.assistantRaw, .thinkingMsg] },
         .ok { status := "partial", signal := signal, error := none
               vars := sigVariables r.signal, return_value := none })
      else if r.success || isInterrupt signal then
        ({ ctx with partialExecutionMessages := [], iteration := 0 },
         .ok { status := "success", signal := signal, error := none
               vars := r.vars
               return_value := if r.success then r.return_value else none })
      else if r.error = some .codeExec then
        ({ ctx with partialExecutionMessages :=
            ctx.partialExecutionMessages ++ [.assistantRaw, .codeErrorMsg] },
         .ok { status := "error", signal := none, error := some .codeExec
               vars := r.vars, return_value := none })
      else (ctx, .thrown ((r.error).getD .otherVm))

/-- A serialized suspension capture.  Modelled from the spec:
`createSnapshot` (snapshots.ts, not under src/) — "a serializable capture
of a suspended iteration", "created only from a suspension signal". -/
structure Snapshot where
  signal : Sig
deriving DecidableEq

/-- Modelled from the spec: `createSnapshot` builds the portable snapshot
from the suspension signal (llmz.ts:138 passes `iteration.signal`). -/
def createSnapshot (s : Sig) : Snapshot := ⟨s⟩

/-- The run outcome of `executeContext` (llmz.ts:135-201):
`{status: 'success' | 'interrupted' | 'error', ...}`; `fuelExhausted` is
the artifact of bounding the unboundedly recursive `while (true)` loop by
a fuel parameter. -/
inductive RunResult
  | success (iterations : List IterRec) (context : Ctx)
  | interrupted (snapshot : Snapshot) (iterations : List IterRec)
      (context : Ctx) (signal : Sig)
  | error (iterations : List IterRec) (context : Ctx) (error : ErrK)
  | fuelExhausted (context : Ctx)
deriving DecidableEq

/-- The `status` discriminator of a run outcome. -/
def RunResult.statusOf : RunResult → String
  | .success .. => "success"
  | .interrupted .. => "interrupted"
  | .error .. => "error"
  | .fuelExhausted .. => "fuel_exhausted"

/-- The iteration-record list carried by a run outcome. -/
def RunResult.iterationsOf : RunResult → List IterRec
  | .success its _ => its
  | .interrupted _ its _ _ => its
  | .error its _ _ => its
  | .fuelExhausted _ => []

/-- The error carried by an `error` run outcome. -/
def RunResult.errorOf : RunResult → Option ErrK
  | .error _ _ e => some e
  | _ => none

/-- The snapshot carried by an `interrupted` run outcome. -/
def RunResult.snapshotOf : RunResult → Option Snapshot
  | .interrupted s _ _ _ => some s
  | _ => none

/-- The signal carried by an `interrupted` run outcome. -/
def RunResult.signalOf : RunResult → Option Sig
  | .interrupted _ _ _ s => some s
  | _ => none

/-- The context carried by a run outcome. -/
def RunResult.contextOf : RunResult → Ctx
  | .success _ c => c
  | .interrupted _ _ c _ => c
  | .error _ c _ => c
  | .fuelExhausted c => c

/-- The Iteration Record synthesized by `executeContext`'s catch block for
an error that escapes an iteration (llmz.ts:169-189). -/
def synthErrorRec (e : ErrK) : IterRec :=
  { status := "error", signal := none, error := some e, vars := []
    return_value := none }

/-- `Object.assign(base, upd)` on variable maps. -/
def mergeVars (base upd : List (String × Val)) : List (String × Val) :=
  upd.foldl (fun acc kv => assocSet acc kv.1 kv.2) base

/-- `signal.context` of a `ThinkSignal` (llmz.ts:159-161). -/
def thinkContext : Option Sig → List (String × Val)
  | some (.think _ c) => c
  | _ => []

/-- The run loop of `executeContext` (llmz.ts:98-201), with the cycle
environments supplied by `envs` (cycle index `k`) and the `while (true)`
loop bounded by `fuel`:

* an abort observed at the top of the loop escapes to the outer catch
  (llmz.ts:100-102) — no record is synthesized;
* a `LoopExceededError` thrown by `executeIteration` is rethrown WITHOUT
  appending a record (llmz.ts:164-166); every other escaping error first
  appends a synthesized `error` record (llmz.ts:169-189);
* a produced record is appended (llmz.ts:124); an abort observed after the
  iteration throws inside the inner try, so the catch block appends a
  synthesized record too (llmz.ts:132-134, 163-191);
* a `success` record with a `VMInterruptSignal` ends the run as
  `interrupted` with a snapshot of the signal (llmz.ts:135-143); any other
  `success` record ends the run as `success` (llmz.ts:145-151);
* a `partial` record with a `ThinkSignal` folds the record's variables and
  the signal's context into the injected variables (llmz.ts:153-162); the
  loop then continues. -/
def executeContext : Nat → Ctx → (Nat → CycleEnv) → Nat → RunResult
  | 0, ctx, _, _ => .fuelExhausted ctx
  | fuel + 1, ctx, envs, k =>
    let env := envs k
    if env.abortedAtStart then .error ctx.iterations ctx .abortedErr
    else
      match executeIteration ctx env with
      | (ctx', .thrown e) =>
        if e = .loopExceeded then .error ctx'.iterations ctx' .loopExceeded
        else
          let ctx2 := { ctx' with
            iterations := ctx'.iterations ++ [synthErrorRec e] }
          .error ctx2.iterations ctx2 e
      | (ctx', .ok r) =>
        let ctx2 := { ctx' with iterations := ctx'.iterations ++ [r] }
        if env.abortedAfterIter then
          let ctx3 := { ctx2 with
            iterations := ctx2.iterations ++ [synthErrorRec .abortedErr] }
          .error ctx3.iterations ctx3 .abortedErr
        else if r.status = "success" then
          match r.signal with
          | some (.interrupt tc) =>
            .interrupted (createSnapshot (.interrupt tc)) ctx2.iterations
              ctx2 (.interrupt tc)
          | _ => .success ctx2.iterations ctx2
        else
          let merged :=
            mergeVars (mergeVars ctx2.injectedVariables r.vars)
              (thinkContext r.signal)
          let ctx3 :=
            if r.status = "partial" ∧ isThink r.signal then
              { ctx2 with injectedVariables := merged }
            else ctx2
          executeContext fuel ctx3 envs (k + 1)

/- C1: a run in which every generated program raises a Code-execution
failure. -/

/-- A loop cycle in which the model responds and the sandbox reports a
`CodeExecutionError` (no abort anywhere). -/
def codeExecFailEnv : CycleEnv :=
  { abortedAtStart := false, llmOk := true, abortedPreExec := false
    sandbox := .res { success := false, return_value := none, signal := none
                      vars := [], error := some .codeExec }
    abortedAfterIter := false }

/-- The Iteration Record produced by a `CodeExecutionError` iteration
(llmz.ts:510-523) under `codeExecFailEnv`. -/
def codeExecRec : IterRec :=
  { status := "error", signal := none, error := some .codeExec
    vars := [], return_value := none }

theorem executeIteration_codeExec (ctx : Ctx)
    (h : ctx.iteration < ctx.loop) :
    executeIteration ctx codeExecFailEnv =
      ({ ctx with
          iteration := ctx.iteration + 1,
          partialExecutionMessages :=
            ctx.partialExecutionMessages ++ [.assistantRaw, .codeErrorMsg] },
       .ok codeExecRec) := by
  unfold executeIteration
  simp [codeExecFailEnv, effectiveSignal, isThink, isInterrupt, sigVariables,
    codeExecRec, Nat.not_le.mpr h]

theorem executeContext_codeExec_step (fuel k : Nat) (ctx : Ctx)
    (h : ctx.iteration < ctx.loop) :
    executeContext (fuel + 1) ctx (fun _ => codeExecFailEnv) k =
      executeContext fuel
        { ctx with
            iteration := ctx.iteration + 1,
            partialExecutionMessages :=
              ctx.partialExecutionMessages ++ [.assistantRaw, .codeErrorMsg],
            iterations := ctx.iterations ++ [codeExecRec] }
        (fun _ => codeExecFailEnv) (k + 1) := by
  simp only [executeContext, executeIteration_codeExec ctx h]
  simp [codeExecFailEnv, codeExecRec, isThink]

theorem executeContext_codeExec_last (k : Nat) (ctx : Ctx)
    (h : ctx.loop ≤ ctx.iteration) :
    executeContext 1 ctx (fun _ => codeExecFailEnv) k =
      .error ctx.iterations { ctx with iteration := ctx.iteration + 1 }
        .loopExceeded := by
  have hstep : executeIteration ctx codeExecFailEnv =
      ({ ctx with iteration := ctx.iteration + 1 }, .thrown .loopExceeded) := by
    unfold executeIteration
    simp [codeExecFailEnv, h]
  simp only [executeContext, hstep]
  simp [codeExecFailEnv]

theorem C1_run (m : Nat) :
    ∀ (ctx : Ctx) (k : Nat), ctx.iteration + m = ctx.loop →
      (executeContext (m + 1) ctx (fun _ => codeExecFailEnv) k).statusOf =
        "error" ∧
      (executeContext (m + 1) ctx (fun _ => codeExecFailEnv) k).iterationsOf =
        ctx.iterations ++ List.replicate m codeExecRec ∧
      (executeContext (m + 1) ctx (fun _ => codeExecFailEnv) k).errorOf =
        some ErrK.loopExceeded := by
  induction m with
  | zero =>
    intro ctx k h
    rw [executeContext_codeExec_last k ctx (by omega)]
    simp [RunResult.statusOf, RunResult.iterationsOf, RunResult.errorOf]
  | succ m ih =>
    intro ctx k h
    rw [executeContext_codeExec_step (m + 1) k ctx (by omega)]
    obtain ⟨hs, hi, he⟩ :=
      ih { ctx with
             iteration := ctx.iteration + 1,
             partialExecutionMessages :=
               ctx.partialExecutionMessages ++ [.assistantRaw, .codeErrorMsg],
             iterations := ctx.iterations ++ [codeExecRec] }
        (k + 1) (by simp; omega)
    refine ⟨hs, ?_, he⟩
    rw [hi]
    simp [List.replicate_succ]

/-- C1 (counterexample): with loop budget `N = 1` and a model that always
returns code raising a Code-execution failure, the run ends in state
`error` with exactly one Iteration Record, but that last record carries
the CODE-EXECUTION failure — no Loop-exceeded record is ever appended,
because `executeContext` rethrows `LoopExceededError` without pushing a
record (llmz.ts:164-166); the Loop-exceeded failure is only the run
outcome's `error`. -/
theorem C1_counterexample :
    (executeContext 2 (createContext 1) (fun _ => codeExecFailEnv) 0).statusOf =
      "error" ∧
    (executeContext 2 (createContext 1)
        (fun _ => codeExecFailEnv) 0).iterationsOf = [codeExecRec] ∧
    (executeContext 2 (createContext 1)
        (fun _ => codeExecFailEnv) 0).errorOf = some ErrK.loopExceeded ∧
    codeExecRec.error = some ErrK.codeExec ∧
    codeExecRec.error ≠ some ErrK.loopExceeded := by
  refine ⟨rfl, rfl, rfl, rfl, by decide⟩

/-- C1 (amended): for every positive loop budget `N`, a run in which every
iteration's generated program raises a Code-execution failure terminates
with status `error` after exactly `N` Iteration Records have been appended
to the context; every one of those records (in particular the last) is the
Code-execution failure record, while the Loop-exceeded failure is carried
as the returned outcome's `error` — it is not appended as a record. -/
theorem C1_loop_budget (N : Nat) (hN : 1 ≤ N) :
    (executeContext (N + 1) (createContext N)
        (fun _ => codeExecFailEnv) 0).statusOf = "error" ∧
    (executeContext (N + 1) (createContext N)
        (fun _ => codeExecFailEnv) 0).iterationsOf =
      List.replicate N codeExecRec ∧
    (executeContext (N + 1) (createContext N)
        (fun _ => codeExecFailEnv) 0).iterationsOf.length = N ∧
    (executeContext (N + 1) (createContext N)
        (fun _ => codeExecFailEnv) 0).iterationsOf.getLast? =
      some codeExecRec ∧
    (executeContext (N + 1) (createContext N)
        (fun _ => codeExecFailEnv) 0).errorOf = some ErrK.loopExceeded := by
  obtain ⟨hs, hi, he⟩ := C1_run N (createContext N) 0 (by simp [createContext])
  rw [show (createContext N).iterations = [] from rfl, List.nil_append] at hi
  refine ⟨hs, hi, by rw [hi]; simp, ?_, he⟩
  rw [hi]
  obtain ⟨M, rfl⟩ : ∃ M, N = M + 1 := ⟨N - 1, by omega⟩
  rw [List.replicate_succ', List.getLast?_concat]

/- C4: an iteration that succeeds with a Suspend-for-interrupt signal. -/

theorem executeIteration_interrupt (ctx : Ctx) (env : CycleEnv)
    (r : VMResult) (tc : Option ToolCallInfo)
    (h2 : env.llmOk = true) (h3 : env.abortedPreExec = false)
    (h5 : env.sandbox = .res r)
    (h6 : effectiveSignal r = some (.interrupt tc))
    (h8 : ctx.iteration < ctx.loop) :
    executeIteration ctx env =
      ({ ctx with iteration := 0, partialExecutionMessages := [] },
       .ok { status := "success", signal := some (.interrupt tc)
             error := none, vars := r.vars
             return_value := if r.success then r.return_value else none }) := by
  unfold executeIteration
  simp [h2, h3, h5, h6, isThink, isInterrupt, Nat.not_le.mpr h8]

/-- C4: whenever an iteration ends with status `success` and its signal is
a `VMInterruptSignal` (and the run is not aborted), `executeContext`
returns the outcome
`{status: 'interrupted', snapshot: createSnapshot(signal), iterations, context, signal}`
(llmz.ts:135-143): the snapshot is created from that signal, the
iteration list contains every appended record including this one, and the
context and signal are carried along. -/
theorem C4_interrupted_outcome (fuel k : Nat) (ctx : Ctx) (env : CycleEnv)
    (r : VMResult) (tc : Option ToolCallInfo)
    (h1 : env.abortedAtStart = false)
    (h2 : env.llmOk = true) (h3 : env.abortedPreExec = false)
    (h4 : env.abortedAfterIter = false)
    (h5 : env.sandbox = .res r)
    (h6 : effectiveSignal r = some (.interrupt tc))
    (h8 : ctx.iteration < ctx.loop) :
    executeContext (fuel + 1) ctx (fun _ => env) k =
      .interrupted (createSnapshot (.interrupt tc))
        (ctx.iterations ++ [{ status := "success"
                              signal := some (.interrupt tc), error := none
                              vars := r.vars
                              return_value :=
                                if r.success then r.return_value else none }])
        { ctx with
            iteration := 0, partialExecutionMessages := [],
            iterations := ctx.iterations ++
              [{ status := "success"
                 signal := some (.interrupt tc), error := none
                 vars := r.vars
                 return_value :=
                   if r.success then r.return_value else none }] }
        (.interrupt tc) := by
  simp only [executeContext,
    executeIteration_interrupt ctx env r tc h2 h3 h5 h6 h8]
  simp [h1, h4]

/-- A loop cycle whose sandbox run raises a `VMInterruptSignal` annotated
with the pending tool call `ask_user`. -/
def interruptEnv : CycleEnv :=
  { abortedAtStart := false, llmOk := true, abortedPreExec := false
    sandbox := .res { success := false, return_value := none
                      signal := some (.interrupt (some ⟨"ask_user", .vstr "q"⟩))
                      vars := [], error := none }
    abortedAfterIter := false }

/-- C4 (witness): instantiates `C4_interrupted_outcome` on a fresh context
with loop budget 3 and a first iteration that raises the
Suspend-for-interrupt signal of `interruptEnv`. -/
theorem C4_interrupted_outcome_witness :
    executeContext (0 + 1) (createContext 3) (fun _ => interruptEnv) 0 =
      .interrupted
        (createSnapshot (.interrupt (some ⟨"ask_user", .vstr "q"⟩)))
        [{ status := "success"
           signal := some (.interrupt (some ⟨"ask_user", .vstr "q"⟩))
           error := none, vars := [], return_value := none }]
        { iteration := 0, loop := 3, partialExecutionMessages := []
          injectedVariables := []
          iterations := [{ status := "success"
                           signal := some (.interrupt (some ⟨"ask_user", .vstr "q"⟩))
                           error := none, vars := [], return_value := none }] }
        (.interrupt (some ⟨"ask_user", .vstr "q"⟩)) :=
  C4_interrupted_outcome 0 0 (createContext 3) interruptEnv _
    (some ⟨"ask_user", .vstr "q"⟩) rfl rfl rfl rfl rfl rfl (by decide)

/- C5: iterations whose sandbox run succeeds or raises
Suspend-for-interrupt. -/

/-- C5 (amended): for every iteration whose sandbox execution succeeds or
raises a `VMInterruptSignal`, PROVIDED the outcome is not a Think outcome
(no `ThinkSignal` raised and no successful return whose action is
`'think'`), the engine clears the context's partial-execution message
list, resets the context's iteration counter to zero, and returns an
Iteration Record with status `success` (llmz.ts:474-499). -/
theorem C5_success_resets (ctx : Ctx) (env : CycleEnv) (r : VMResult)
    (h2 : env.llmOk = true) (h3 : env.abortedPreExec = false)
    (h5 : env.sandbox = .res r)
    (h6 : isThink (effectiveSignal r) = false)
    (h7 : r.success = true ∨ isInterrupt (effectiveSignal r) = true)
    (h8 : ctx.iteration < ctx.loop) :
    executeIteration ctx env =
      ({ ctx with iteration := 0, partialExecutionMessages := [] },
       .ok { status := "success", signal := effectiveSignal r
             error := none, vars := r.vars
             return_value := if r.success then r.return_value else none }) := by
  unfold executeIteration
  rcases h7 with h7 | h7 <;>
    simp [h2, h3, h5, h6, h7, Nat.not_le.mpr h8]

/-- A loop cycle whose sandbox run succeeds with the declared return value
`{action: 'think'}`. -/
def thinkReturnEnv : CycleEnv :=
  { abortedAtStart := false, llmOk := true, abortedPreExec := false
    sandbox := .res { success := true
                      return_value := some { action := some "think", fields := [] }
                      signal := none, vars := [], error := none }
    abortedAfterIter := false }

/-- C5 (counterexample): a sandbox execution that SUCCEEDS but whose
declared return action is `'think'` does not get the success treatment:
the iteration returns status `partial`, the partial-execution message list
grows (it is not cleared) and the iteration counter stays at its
incremented value instead of being reset to zero (llmz.ts:434-472 run
before the success branch at llmz.ts:474). -/
theorem C5_counterexample :
    executeIteration (createContext 3) thinkReturnEnv =
      ({ iteration := 1, loop := 3
         partialExecutionMessages := [.assistantRaw, .thinkingMsg]
         injectedVariables := [], iterations := [] },
       .ok { status := "partial", signal := some (.think [] [])
             error := none, vars := [], return_value := none }) ∧
    (executeIteration (createContext 3) thinkReturnEnv).1.iteration ≠ 0 ∧
    (executeIteration (createContext 3)
        thinkReturnEnv).1.partialExecutionMessages ≠ [] ∧
    (recOf (executeIteration (createContext 3) thinkReturnEnv)).map
      IterRec.status = some "partial" := by
  refine ⟨rfl, by decide, by decide, rfl⟩

/-- A loop cycle whose sandbox run succeeds with the declared return value
`{action: 'listen'}` and one produced variable. -/
def listenSuccessEnv : CycleEnv :=
  { abortedAtStart := false, llmOk := true, abortedPreExec := false
    sandbox := .res { success := true
                      return_value := some { action := some "listen", fields := [] }
                      signal := none, vars := [("answer", .vnum 5)], error := none }
    abortedAfterIter := false }

/-- C5 (witness): instantiates `C5_success_resets` on a context that has
pending partial-execution messages and iteration counter 1, with a
successful `listen` run: the messages are cleared, the counter is reset to
zero and the record has status `success`. -/
theorem C5_success_resets_witness :
    executeIteration
      { iteration := 1, loop := 3
        partialExecutionMessages := [.assistantRaw, .thinkingMsg]
        injectedVariables := [], iterations := [] } listenSuccessEnv =
      ({ iteration := 0, loop := 3, partialExecutionMessages := []
         injectedVariables := [], iterations := [] },
       .ok { status := "success", signal := none, error := none
             vars := [("answer", .vnum 5)]
             return_value := some { action := some "listen", fields := [] } }) :=
  C5_success_resets
    { iteration := 1, loop := 3
      partialExecutionMessages := [.assistantRaw, .thinkingMsg]
      injectedVariables := [], iterations := [] }
    listenSuccessEnv _ rfl rfl rfl rfl (Or.inl rfl) (by decide)

/-- C1 (witness): instantiates `C1_loop_budget` at loop budget `N = 2`. -/
theorem C1_loop_budget_witness :
    (executeContext (2 + 1) (createContext 2)
        (fun _ => codeExecFailEnv) 0).statusOf = "error" ∧
    (executeContext (2 + 1) (createContext 2)
        (fun _ => codeExecFailEnv) 0).iterationsOf =
      List.replicate 2 codeExecRec ∧
    (executeContext (2 + 1) (createContext 2)
        (fun _ => codeExecFailEnv) 0).iterationsOf.length = 2 ∧
    (executeContext (2 + 1) (createContext 2)
        (fun _ => codeExecFailEnv) 0).iterationsOf.getLast? =
      some codeExecRec ∧
    (executeContext (2 + 1) (createContext 2)
        (fun _ => codeExecFailEnv) 0).errorOf = some ErrK.loopExceeded :=
  C1_loop_budget 2 (by decide)


/- The tool wrapper `wrapTool` (llmz.ts:535-668).  A tool call's value
domain distinguishes plain values from signal values, since a tool may
throw a control signal, and `output instanceof VMSignal` is checked on the
synchronous return path (llmz.ts:661-664). -/

/-- What a tool call can throw: a plain error or a control signal. -/
inductive TErr
  | err (msg : String)
  | sig (s : Sig)
deriving DecidableEq

/-- What a tool call can produce as output: a plain value or a signal
value. -/
inductive TVal
  | val (v : Val)
  | sigv (s : Sig)
deriving DecidableEq

/-- How the underlying `tool.execute(input)` behaves (llmz.ts:602-603):
it can return synchronously, throw synchronously, or return a promise that
later resolves or rejects. -/
inductive ExecBehavior
  | syncReturn (v : TVal)
  | syncThrow (e : TErr)
  | asyncResolve (v : TVal)
  | asyncReject (e : TErr)
deriving DecidableEq

/-- The trace events pushed by `wrapTool`: the slow-tool warning
(llmz.ts:541-548), the tool-call record (llmz.ts:621-631, 645-655), and
the think/execute signal traces pushed by `handleSignals`
(llmz.ts:574-596).  Only the fields the claims are about are kept. -/
inductive WTrace
  | toolSlow (tool_name : String) (input : Val)
  | toolCall (tool_name : String) (input : Val) (success : Bool)
  | thinkSignal
  | executeSignal
deriving DecidableEq

/-- How the wrapped call finishes from the caller's point of view:
a returned value or a thrown error/signal (a rejected promise counts as
thrown). -/
inductive WrapOutcome
  | ret (v : TVal)
  | thrown (e : TErr)
deriving DecidableEq

/-- Observable effects of one wrapped tool call: whether
`cancelSlowTool()` (llmz.ts:551) ran by the time the call finished, the
exact value passed to `tool.execute`, the pushed traces, and the final
outcome. -/
structure WrapRun where
  timerCleared : Bool
  execInput : Val
  traces : List WTrace
  outcome : WrapOutcome
deriving DecidableEq

/-- The wrapped tool call (llmz.ts:538-667).  `zParse` models
`tool.zInput.safeParse`; `getToolInput(input)` is
`tool.zInput.safeParse(input).data ?? input` (llmz.ts:536), used ONLY for
the `input` field of slow-tool and tool-call traces, while `tool.execute`
receives the raw `input` (llmz.ts:602) and the `VMInterruptSignal`
annotation stores the raw `input` (llmz.ts:564-569).  `slowFired` says
whether the 15-second timer fired (pushing its trace) before the call
finished; `clearTimeout` on a fired timer is still a valid clear, so
`timerCleared` only tracks that `cancelSlowTool` ran.

Branches:
* synchronous return: success trace, then the `output instanceof VMSignal`
  recheck throws a returned signal value (llmz.ts:635-666);
* synchronous throw: `handleSignals` (llmz.ts:558-599) — a `ThinkSignal`
  or `ExecuteSignal` pushes its own trace, marks the call successful and
  becomes the output, which is then rethrown by the `VMSignal` recheck;
  a `VMInterruptSignal` is annotated with `{name, input}` and rethrown as
  a failure; any other error is recorded as a failed call and rethrown
  (llmz.ts:637-659);
* asynchronous resolve: the `.then` handler stores the output and the
  `.finally` clears the timer and records the success trace
  (llmz.ts:604-632) — note there is NO `VMSignal` recheck on this path;
* asynchronous reject: the `.catch` handler runs `handleSignals` and
  ALWAYS rethrows the (possibly annotated) rejection (llmz.ts:610-618),
  then `.finally` clears the timer and records the trace. -/
def wrapTool (toolName : String) (zParse : Val → Option Val)
    (slowFired : Bool) (input : Val) (beh : ExecBehavior) : WrapRun :=
  let gInput := (zParse input).getD input
  let slowTraces := if slowFired then [WTrace.toolSlow toolName gInput] else []
  match beh with
  | .syncReturn v =>
    { timerCleared := true, execInput := input
      traces := slowTraces ++ [.toolCall toolName gInput true]
      outcome := match v with
        | .sigv s => .thrown (.sig s)
        | .val w => .ret (.val w) }
  | .syncThrow e =>
    match e with
    | .sig (.think vs c) =>
      { timerCleared := true, execInput := input
        traces := slowTraces ++ [.thinkSignal, .toolCall toolName gInput true]
        outcome := .thrown (.sig (.think vs c)) }
    | .sig .executeSig =>
      { timerCleared := true, execInput := input
        traces := slowTraces ++
          [.executeSignal, .toolCall toolName gInput true]
        outcome := .thrown (.sig .executeSig) }
    | .sig (.interrupt _) =>
      { timerCleared := true, execInput := input
        traces := slowTraces ++ [.toolCall toolName gInput false]
        outcome := .thrown (.sig (.interrupt (some ⟨toolName, input⟩))) }
    | .err m =>
      { timerCleared := true, execInput := input
        traces := slowTraces ++ [.toolCall toolName gInput false]
        outcome := .thrown (.err m) }
  | .asyncResolve v =>
    { timerCleared := true, execInput := input
      traces := slowTraces ++ [.toolCall toolName gInput true]
      outcome := .ret v }
  | .asyncReject e =>
    match e with
    | .sig (.think vs c) =>
      { timerCleared := true, execInput := input
        traces := slowTraces ++ [.thinkSignal, .toolCall toolName gInput true]
        outcome := .thrown (.sig (.think vs c)) }
    | .sig .executeSig =>
      { timerCleared := true, execInput := input
        traces := slowTraces ++
          [.executeSignal, .toolCall toolName gInput true]
        outcome := .thrown (.sig .executeSig) }
    | .sig (.interrupt _) =>
      { timerCleared := true, execInput := input
        traces := slowTraces ++ [.toolCall toolName gInput false]
        outcome := .thrown (.sig (.interrupt (some ⟨toolName, input⟩))) }
    | .err m =>
      { timerCleared := true, execInput := input
        traces := slowTraces ++ [.toolCall toolName gInput false]
        outcome := .thrown (.err m) }

/-- Whether every slow-tool and tool-call trace in the list records `gi`
as its input. -/
def traceInputsMatch (ts : List WTrace) (gi : Val) : Bool :=
  ts.all fun t =>
    match t with
    | .toolSlow _ i => decide (i = gi)
    | .toolCall _ i _ => decide (i = gi)
    | _ => true

/-- C8: for every wrapped tool call — synchronous or asynchronous, and
whether it completes successfully, throws an error, or raises a control
signal — the slow-call warning timer started at call entry has been
cleared by the time the call finishes: each completion path runs
`cancelSlowTool()` (llmz.ts:619, 644) before returning or (re)throwing,
so no call leaves a pending timer behind. -/
theorem C8_timer_cleared (toolName : String) (zParse : Val → Option Val)
    (slowFired : Bool) (input : Val) (beh : ExecBehavior) :
    (wrapTool toolName zParse slowFired input beh).timerCleared = true := by
  unfold wrapTool
  rcases beh with v | e | v | e
  · rcases v <;> rfl
  · rcases e with m | s
    · rfl
    · rcases s <;> rfl
  · rfl
  · rcases e with m | s
    · rfl
    · rcases s <;> rfl

/-- C10: for every wrapped tool call, the underlying implementation
`tool.execute` is invoked with exactly the raw input value the generated
program supplied, while every slow-tool and tool-call trace records the
schema-parsed/coerced input `getToolInput(input) = zParse(input) ?? input`
in its `input` field. -/
theorem C10_raw_input (toolName : String) (zParse : Val → Option Val)
    (slowFired : Bool) (input : Val) (beh : ExecBehavior) :
    (wrapTool toolName zParse slowFired input beh).execInput = input ∧
    traceInputsMatch (wrapTool toolName zParse slowFired input beh).traces
      ((zParse input).getD input) = true := by
  unfold wrapTool
  rcases beh with v | e | v | e
  · rcases v <;> rcases slowFired <;> simp [traceInputsMatch]
  · rcases e with m | s
    · rcases slowFired <;> simp [traceInputsMatch]
    · rcases s <;> rcases slowFired <;> simp [traceInputsMatch]
  · rcases slowFired <;> simp [traceInputsMatch]
  · rcases e with m | s
    · rcases slowFired <;> simp [traceInputsMatch]
    · rcases s <;> rcases slowFired <;> simp [traceInputsMatch]

end LLMZ
